import Mathlib

/-!
Shallow embedding of `src/models/pixel_diff.py` (the `DiffVision` service of
the-great-diffenator). Decoded images (`np.array(Image.open(...))`) are
modelled as `NDArr`: a numpy shape (`[h, w]` for single-channel images,
`[h, w, c]` for multi-channel ones) together with the flattened row-major
list of 8-bit samples. Python floats are modelled as rationals; the raw
samples are naturals `≤ 255`. Exceptions raised by a method are modelled
with `Except`, paired with the post-state of the object (Python object
state keeps whatever mutations happened before the raise).
-/

namespace DiffVision

/-- A decoded raster image: numpy shape plus flattened row-major samples. -/
structure NDArr where
  shape : List Nat
  data : List Nat
deriving DecidableEq

/-- Exceptions that the embedded methods can raise. `runtimeError` is the
"Input camera not set" check, `decodeError` is PIL failing to parse the
buffer, `typeError` is Python's `TypeError` from comparing `int >= list`
(line 125 of the source), and `valueError` covers numpy broadcast failures
and the missing-dependency check in `reconfigure`. -/
inductive EvalErr
  | runtimeError
  | decodeError
  | typeError
  | valueError
deriving DecidableEq

/-- Numpy shape padding: align a shape to rank `k` by adding leading 1s. -/
def padShape (k : Nat) (s : List Nat) : List Nat :=
  List.replicate (k - s.length) 1 ++ s

/-- Numpy broadcasting of a single dimension pair. -/
def bcastDim (a b : Nat) : Option Nat :=
  if a = b then some a else if a = 1 then some b else if b = 1 then some a else none

/-- Numpy broadcasting of two shapes of equal rank. -/
def bcastDims : List Nat → List Nat → Option (List Nat)
  | [], [] => some []
  | a :: s, b :: t =>
    match bcastDim a b, bcastDims s t with
    | some d, some r => some (d :: r)
    | _, _ => none
  | _, _ => none

/-- All multi-indices of a shape, in row-major order. -/
def multiIndices : List Nat → List (List Nat)
  | [] => [[]]
  | d :: ds => (List.range d).flatMap fun i => (multiIndices ds).map (i :: ·)

/-- Row-major flat index of a multi-index in a shape. -/
def flatIndex : List Nat → List Nat → Nat
  | _ :: ds, i :: is => i * ds.prod + flatIndex ds is
  | _, _ => 0

/-- Read the sample of `a` addressed by a broadcast multi-index `m` (whose
rank may exceed `a`'s): numpy uses the trailing coordinates and reads
position 0 along any dimension of extent 1. -/
def readMulti (a : NDArr) (m : List Nat) : Nat :=
  let m' := m.drop (m.length - a.shape.length)
  let coords := a.shape.zipWith (fun d i => if d = 1 then 0 else i) m'
  a.data.getD (flatIndex a.shape coords) 0

/-- Absolute difference of two samples, as in
`np.abs(x.astype(float) - y.astype(float))`. -/
def natAbsDiff (x y : Nat) : Nat := max x y - min x y

/-- Elementwise part of `np.abs(img1.astype(float) - img2.astype(float))`:
broadcast the two arrays (a failure is numpy's `ValueError`, reported as
`none`) and list the absolute sample differences in row-major order. -/
def absSubData (a b : NDArr) : Option (List Nat) :=
  let k := max a.shape.length b.shape.length
  match bcastDims (padShape k a.shape) (padShape k b.shape) with
  | none => none
  | some bs =>
    some ((multiIndices bs).map fun m => natAbsDiff (readMulti a m) (readMulti b m))

/-- The full kernel
`np.mean(np.abs(img1.astype(float) - img2.astype(float))) / 255.0`:
average the absolute differences and divide by the maximal sample value. -/
def absSubMean (a b : NDArr) : Except EvalErr ℚ :=
  match absSubData a b with
  | none => .error .valueError
  | some d => .ok ((d.sum : ℚ) / (d.length : ℚ) / 255)

/-- Model of `Image.fromarray(a).resize((w2, h2))` followed by `np.array`:
an image of the requested height and width with the channel dimensions
preserved. PIL's resampling filter is modelled as nearest-neighbour
sampling; every output sample is one of the input samples (or 0 when out
of range), which is all the verified properties depend on. -/
def resizeTo (a : NDArr) (h2 w2 : Nat) : NDArr :=
  let h := a.shape.getD 0 0
  let w := a.shape.getD 1 0
  let s2 := h2 :: w2 :: a.shape.drop 2
  { shape := s2
    data := (multiIndices s2).map fun m =>
      match m with
      | i :: j :: r => a.data.getD (flatIndex a.shape (i * h / h2 :: j * w / w2 :: r)) 0
      | _ => 0 }

/-- The `h, w = img.shape[:2]` extraction. -/
def shapeHW (a : NDArr) : Nat × Nat := (a.shape.getD 0 0, a.shape.getD 1 0)

/-- Embedding of `DiffVision._calculate_image_diff`: if the shapes differ,
resize the image with the larger `h * w` pixel count down to the other's
height and width, then return the normalized mean absolute difference. -/
def _calculate_image_diff (img1 img2 : NDArr) : Except EvalErr ℚ :=
  if img1.shape ≠ img2.shape then
    if (shapeHW img1).1 * (shapeHW img1).2 > (shapeHW img2).1 * (shapeHW img2).2 then
      absSubMean (resizeTo img1 (shapeHW img2).1 (shapeHW img2).2) img2
    else
      absSubMean img1 (resizeTo img2 (shapeHW img1).1 (shapeHW img1).2)
  else
    absSubMean img1 img2

/-- The mutable fields of a `DiffVision` instance. `input_camera` records
whether `self.input_camera` is set (truthy). `image_memories_cfg` carries
the most recently configured `image_memories` attribute: the source
validates it in `validate_config` but stores no field for it (the intended
capacity check on line 125 instead compares against the list itself). -/
structure EngineState where
  image_memories : List NDArr
  required_diff : ℚ
  input_camera : Bool
  image_memories_cfg : Nat
deriving DecidableEq

/-- Result record of `get_detections`:
`{"confidence": 1.0, "class_name": "significant_change"}`. -/
structure Detection where
  class_name : String
  confidence : ℚ
deriving DecidableEq

/-- Result record of `get_classifications`. -/
structure Classification where
  class_name : String
  confidence : ℚ
deriving DecidableEq

/-- An input buffer for `get_detections`, modelled by the outcome of
`Image.open(io.BytesIO(image.data))`: either it decodes to a raster grid
or PIL raises (a `DecodeError`). -/
inductive RawImage
  | valid (img : NDArr)
  | invalid
deriving DecidableEq

/-- The comparison loop of `get_detections` (lines 114-121): scan the
stored memories in order, oldest first; raise any exception from
`_calculate_image_diff`; stop at the first memory whose difference is
strictly below `required_diff` (`is_different = False`); otherwise
continue, ending with `is_different = True`. -/
def compareLoop (img : NDArr) (thr : ℚ) : List NDArr → Except EvalErr Bool
  | [] => .ok true
  | m :: rest =>
    match _calculate_image_diff img m with
    | .error e => .error e
    | .ok d => if d < thr then .ok false else compareLoop img thr rest

/-- Embedding of `DiffVision.get_detections`, returning the post-state of
the object together with the returned detections or the raised exception.
Branches, in source order: the input-camera check (`RuntimeError`); the
decode of the buffer (`DecodeError`); the bootstrap append-and-return on
empty memory; the comparison loop; and the `is_different` branch, where
line 125 (`if len(self.image_memories) >= self.image_memories:`) compares
an `int` with a `list` and therefore raises `TypeError` before the
pop/append on lines 126-130 can run, leaving the memory unchanged. -/
def get_detections (st : EngineState) (image : RawImage) :
    EngineState × Except EvalErr (List Detection) :=
  if st.input_camera = false then (st, .error .runtimeError)
  else
    match image with
    | .invalid => (st, .error .decodeError)
    | .valid img_array =>
      if st.image_memories.isEmpty then
        ({ st with image_memories := [img_array] }, .ok [])
      else
        match compareLoop img_array st.required_diff st.image_memories with
        | .error e => (st, .error e)
        | .ok false => (st, .ok [])
        | .ok true => (st, .error .typeError)

/-- Embedding of `DiffVision.get_classifications`: call `get_detections`
and map each detection into a classification of the same shape. -/
def get_classifications (st : EngineState) (image : RawImage) :
    EngineState × Except EvalErr (List Classification) :=
  match get_detections st image with
  | (st2, .error e) => (st2, .error e)
  | (st2, .ok ds) => (st2, .ok (ds.map fun d => ⟨d.class_name, d.confidence⟩))

/-- Status/message pair returned by `do_command`. -/
structure CmdResp where
  status : String
  message : String
deriving DecidableEq

/-- Embedding of `DiffVision.do_command`, with the command dict modelled
by its key set: if `"targeted_memory_erasure"` is among the keys, clear
`image_memories` and answer success; otherwise answer the structured
unknown-command status. -/
def do_command (st : EngineState) (command : List String) : EngineState × CmdResp :=
  if "targeted_memory_erasure" ∈ command then
    ({ st with image_memories := [] }, ⟨"success", "All image memories cleared"⟩)
  else
    (st, ⟨"error", "Unknown command"⟩)

/-- A configuration object as consumed by `reconfigure`: the validated
`image_memories` capacity, the optional `required_diff` attribute, and
whether the configured input camera is present among the dependencies. -/
structure Config where
  image_memories : Nat
  required_diff : Option ℚ
  cameraPresent : Bool
deriving DecidableEq

/-- Embedding of `DiffVision.reconfigure`: raise `ValueError` (state
untouched) when the input camera is not among the dependencies; otherwise
set the camera, clear `image_memories`, and set `required_diff` from the
config with default 0.2. The configured `image_memories` value is recorded
in the ghost field `image_memories_cfg`; the source keeps no field for it. -/
def reconfigure (st : EngineState) (cfg : Config) : EngineState × Except EvalErr Unit :=
  if cfg.cameraPresent = false then (st, .error .valueError)
  else
    ({ image_memories := []
       required_diff := cfg.required_diff.getD (mkRat 1 5)
       input_camera := true
       image_memories_cfg := cfg.image_memories }, .ok ())

/-- The state set up by `DiffVision.__init__`: empty memory, default
threshold 0.2, no camera. `image_memories_cfg` starts at 1 (no capacity
has been configured yet; `validate_config` only admits values `≥ 1`). -/
def initState : EngineState :=
  { image_memories := []
    required_diff := mkRat 1 5
    input_camera := false
    image_memories_cfg := 1 }

/-- One public call on a `DiffVision` instance. -/
inductive Op
  | evalOp (image : RawImage)
  | classifyOp (image : RawImage)
  | commandOp (keys : List String)
  | reconfigOp (cfg : Config)

/-- The post-state of one call (whether it returns or raises: every raise
in the embedded methods happens before any mutation, so the post-state of
a raising call is its pre-state). -/
def step (st : EngineState) : Op → EngineState
  | .evalOp image => (get_detections st image).1
  | .classifyOp image => (get_classifications st image).1
  | .commandOp keys => (do_command st keys).1
  | .reconfigOp cfg => (reconfigure st cfg).1

/-- Run a sequence of calls from a state. -/
def runOps (st : EngineState) : List Op → EngineState
  | [] => st
  | op :: ops => runOps (step st op) ops

/-- A call is well configured when any configuration it carries has a
positive `image_memories` capacity, as `validate_config` guarantees. -/
def opOk : Op → Bool
  | .reconfigOp cfg => decide (1 ≤ cfg.image_memories)
  | _ => true

/-- A decoded image as `np.array(Image.open(...))` produces it: rank 2 or
3, no degenerate dimension, 8-bit samples, and data matching the shape. -/
def ValidImg (a : NDArr) : Prop :=
  2 ≤ a.shape.length ∧ a.shape.length ≤ 3 ∧ (∀ d ∈ a.shape, 1 ≤ d) ∧
    (∀ x ∈ a.data, x ≤ 255) ∧ a.data.length = a.shape.prod

instance decidableValidImg (a : NDArr) : Decidable (ValidImg a) := by
  unfold ValidImg
  infer_instance

/-- A 1×1 grayscale image, all-black. -/
def img0W : NDArr := ⟨[1, 1], [0]⟩

/-- A 1×1 grayscale image, all-white. -/
def imgC1 : NDArr := ⟨[1, 1], [255]⟩

/-- A configured engine holding one stored reference image. -/
def stOneW : EngineState := ⟨[img0W], mkRat 1 5, true, 1⟩

/-- A configured engine with empty memory. -/
def stEmptyW : EngineState := ⟨[], mkRat 1 5, true, 2⟩

/-- A 1×2 grayscale stored reference. -/
def memC5 : NDArr := ⟨[1, 2], [0, 0]⟩

/-- A 1×2 grayscale input whose difference from `memC5` is exactly 0.2. -/
def imgC5 : NDArr := ⟨[1, 2], [51, 51]⟩

/-- A configured engine holding `memC5`, threshold 0.2. -/
def stC5 : EngineState := ⟨[memC5], mkRat 1 5, true, 1⟩

/-- A 1×2 grayscale image. -/
def imgA8 : NDArr := ⟨[1, 2], [10, 200]⟩

/-- Another 1×2 grayscale image. -/
def imgB8 : NDArr := ⟨[1, 2], [60, 0]⟩

/-- A 1×1 grayscale image. -/
def imgA9 : NDArr := ⟨[1, 1], [10]⟩

/-- A 2×2 grayscale image. -/
def imgB9 : NDArr := ⟨[2, 2], [0, 0, 0, 0]⟩

/-- A 1×2 three-channel (RGB) image: numpy shape `(1, 2, 3)`. -/
def imgA9x : NDArr := ⟨[1, 2, 3], [10, 20, 30, 40, 50, 60]⟩

/-- A 2×4 grayscale image: numpy shape `(2, 4)`. -/
def imgB9x : NDArr := ⟨[2, 4], [1, 2, 3, 4, 5, 6, 7, 8]⟩

/-- A concrete call sequence: configure, two evaluations, then the
memory-erasure command. -/
def wOps : List Op :=
  [.reconfigOp ⟨2, some (mkRat 1 5), true⟩, .evalOp (.valid img0W),
    .evalOp (.valid imgC1), .commandOp ["targeted_memory_erasure"]]

lemma natAbsDiff_comm (x y : Nat) : natAbsDiff x y = natAbsDiff y x := by
  unfold natAbsDiff
  rw [Nat.max_comm, Nat.min_comm]

lemma natAbsDiff_le (x y : Nat) (hx : x ≤ 255) (hy : y ≤ 255) : natAbsDiff x y ≤ 255 := by
  unfold natAbsDiff
  omega

lemma padShape_self (s : List Nat) : padShape s.length s = s := by
  simp [padShape]

lemma bcastDims_self (s : List Nat) : bcastDims s s = some s := by
  induction s with
  | nil => rfl
  | cons d t ih => simp [bcastDims, bcastDim, ih]

lemma multiIndices_length (s : List Nat) : (multiIndices s).length = s.prod := by
  induction s with
  | nil => rfl
  | cons d t ih =>
    simp [multiIndices, List.length_flatMap, Function.comp_def, ih, List.prod_cons,
      Nat.mul_comm]

lemma getD_le_255 (l : List Nat) (i : Nat) (h : ∀ x ∈ l, x ≤ 255) : l.getD i 0 ≤ 255 := by
  rw [List.getD_eq_getElem?_getD]
  cases hx : l[i]? with
  | none => simp
  | some x => simpa using h x (List.getElem?_mem hx)

lemma readMulti_le (a : NDArr) (m : List Nat) (h : ∀ x ∈ a.data, x ≤ 255) :
    readMulti a m ≤ 255 :=
  getD_le_255 _ _ h

lemma absSubMean_eq_of_data (a b : NDArr) (d : List Nat) (h : absSubData a b = some d) :
    absSubMean a b = .ok ((d.sum : ℚ) / (d.length : ℚ) / 255) := by
  simp [absSubMean, h]

lemma absSubMean_bounds (a b : NDArr) (hsh : a.shape = b.shape)
    (hpos : ∀ d ∈ b.shape, 1 ≤ d)
    (ha : ∀ x ∈ a.data, x ≤ 255) (hb : ∀ x ∈ b.data, x ≤ 255) :
    ∃ q, absSubMean a b = .ok q ∧ 0 ≤ q ∧ q ≤ 1 := by
  have hdata : absSubData a b =
      some ((multiIndices b.shape).map fun m => natAbsDiff (readMulti a m) (readMulti b m)) := by
    unfold absSubData
    rw [hsh]
    simp [padShape_self, bcastDims_self]
  set d := (multiIndices b.shape).map fun m => natAbsDiff (readMulti a m) (readMulti b m) with hd
  refine ⟨(d.sum : ℚ) / (d.length : ℚ) / 255, absSubMean_eq_of_data a b d hdata, ?_, ?_⟩
  · positivity
  · have hlen : d.length = b.shape.prod := by
      rw [hd, List.length_map, multiIndices_length]
    have hlenpos : 0 < d.length := by
      rw [hlen]
      exact List.prod_pos fun x hx => hpos x hx
    have h255 : ∀ x ∈ d, x ≤ 255 := by
      intro x hx
      rw [hd] at hx
      obtain ⟨m, _, rfl⟩ := List.mem_map.mp hx
      exact natAbsDiff_le _ _ (readMulti_le a m ha) (readMulti_le b m hb)
    have hsum : d.sum ≤ 255 * d.length := by
      have := List.sum_le_card_nsmul d 255 h255
      simpa [smul_eq_mul, Nat.mul_comm] using this
    have hcast : (d.sum : ℚ) ≤ 255 * (d.length : ℚ) := by exact_mod_cast hsum
    have hlenq : (0 : ℚ) < (d.length : ℚ) := by exact_mod_cast hlenpos
    rw [div_div, div_le_one (by positivity)]
    linarith

lemma resizeTo_shape (a : NDArr) (h2 w2 : Nat) :
    (resizeTo a h2 w2).shape = h2 :: w2 :: a.shape.drop 2 := rfl

lemma resizeTo_data_le (a : NDArr) (h2 w2 : Nat) (ha : ∀ x ∈ a.data, x ≤ 255) :
    ∀ x ∈ (resizeTo a h2 w2).data, x ≤ 255 := by
  intro x hx
  obtain ⟨m, _, rfl⟩ := List.mem_map.mp hx
  rcases m with _ | ⟨i, _ | ⟨j, r⟩⟩
  · exact Nat.zero_le 255
  · exact Nat.zero_le 255
  · exact getD_le_255 _ _ ha

lemma get_detections_no_camera (st : EngineState) (image : RawImage)
    (h : st.input_camera = false) :
    get_detections st image = (st, .error .runtimeError) := by
  simp [get_detections, h]

lemma get_detections_invalid (st : EngineState) (h : st.input_camera = true) :
    get_detections st .invalid = (st, .error .decodeError) := by
  simp [get_detections, h]

lemma get_detections_empty (st : EngineState) (img : NDArr)
    (hc : st.input_camera = true) (hm : st.image_memories = []) :
    get_detections st (.valid img) = ({ st with image_memories := [img] }, .ok []) := by
  simp [get_detections, hc, hm]

lemma get_detections_loop (st : EngineState) (img : NDArr)
    (hc : st.input_camera = true) (hm : st.image_memories.isEmpty = false) :
    get_detections st (.valid img) =
      match compareLoop img st.required_diff st.image_memories with
      | .error e => (st, .error e)
      | .ok false => (st, .ok [])
      | .ok true => (st, .error .typeError) := by
  simp [get_detections, hc, hm]

lemma compareLoop_break (img : NDArr) (thr : ℚ) (front : List NDArr) (x : NDArr)
    (rest : List NDArr)
    (hfront : ∀ m ∈ front, ∃ q, _calculate_image_diff img m = .ok q ∧ thr ≤ q)
    (hx : ∃ q, _calculate_image_diff img x = .ok q ∧ q < thr) :
    compareLoop img thr (front ++ x :: rest) = .ok false := by
  induction front with
  | nil =>
    obtain ⟨q, hq, hlt⟩ := hx
    simp [compareLoop, hq, hlt]
  | cons m front ih =>
    obtain ⟨q, hq, hge⟩ := hfront m (by simp)
    have hnlt : ¬ q < thr := not_lt.2 hge
    rw [List.cons_append, compareLoop, hq]
    simp only [hnlt, if_false]
    exact ih fun m2 hm2 => hfront m2 (by simp [hm2])

lemma get_classifications_fst (st : EngineState) (image : RawImage) :
    (get_classifications st image).1 = (get_detections st image).1 := by
  unfold get_classifications
  rcases h : get_detections st image with ⟨st2, r⟩
  cases r <;> simp

lemma get_detections_fst_cases (st : EngineState) (image : RawImage) :
    (get_detections st image).1 = st ∨
      (st.image_memories = [] ∧ ∃ img, image = .valid img ∧
        (get_detections st image).1 = { st with image_memories := [img] }) := by
  by_cases hc : st.input_camera = false
  · rw [get_detections_no_camera st image hc]
    exact Or.inl rfl
  · rw [Bool.not_eq_false] at hc
    cases image with
    | invalid =>
      rw [get_detections_invalid st hc]
      exact Or.inl rfl
    | valid img =>
      by_cases hm : st.image_memories.isEmpty
      · have hnil : st.image_memories = [] := List.isEmpty_iff.mp hm
        rw [get_detections_empty st img hc hnil]
        exact Or.inr ⟨hnil, img, rfl, rfl⟩
      · rw [get_detections_loop st img hc (Bool.not_eq_true _ ▸ hm :)]
        rcases compareLoop img st.required_diff st.image_memories with e | b
        · exact Or.inl rfl
        · cases b
          · exact Or.inl rfl
          · exact Or.inl rfl

lemma step_len_le_one (st : EngineState) (op : Op)
    (h : st.image_memories.length ≤ 1) : (step st op).image_memories.length ≤ 1 := by
  cases op with
  | evalOp image =>
    rcases get_detections_fst_cases st image with heq | ⟨_, img, _, heq⟩ <;>
      simp [step, heq, h]
  | classifyOp image =>
    rw [step, get_classifications_fst]
    rcases get_detections_fst_cases st image with heq | ⟨_, img, _, heq⟩ <;> simp [heq, h]
  | commandOp keys =>
    by_cases hk : "targeted_memory_erasure" ∈ keys <;> simp [step, do_command, hk, h]
  | reconfigOp cfg =>
    by_cases hp : cfg.cameraPresent = false <;> simp [step, reconfigure, hp, h]

lemma step_cfg_pos (st : EngineState) (op : Op) (hop : opOk op = true)
    (h : 1 ≤ st.image_memories_cfg) : 1 ≤ (step st op).image_memories_cfg := by
  cases op with
  | evalOp image =>
    rcases get_detections_fst_cases st image with heq | ⟨_, img, _, heq⟩ <;>
      simp [step, heq, h]
  | classifyOp image =>
    rw [step, get_classifications_fst]
    rcases get_detections_fst_cases st image with heq | ⟨_, img, _, heq⟩ <;> simp [heq, h]
  | commandOp keys =>
    by_cases hk : "targeted_memory_erasure" ∈ keys <;> simp [step, do_command, hk, h]
  | reconfigOp cfg =>
    have hcfg : 1 ≤ cfg.image_memories := by simpa [opOk] using hop
    by_cases hp : cfg.cameraPresent = false <;> simp [step, reconfigure, hp, h, hcfg]

lemma runOps_len (ops : List Op) (st : EngineState)
    (h : st.image_memories.length ≤ 1) : (runOps st ops).image_memories.length ≤ 1 := by
  induction ops generalizing st with
  | nil => exact h
  | cons op ops ih => exact ih (step st op) (step_len_le_one st op h)

lemma runOps_cfg (ops : List Op) (st : EngineState)
    (hops : ∀ op ∈ ops, opOk op = true)
    (h : 1 ≤ st.image_memories_cfg) : 1 ≤ (runOps st ops).image_memories_cfg := by
  induction ops generalizing st with
  | nil => exact h
  | cons op ops ih =>
    exact ih (step st op) (fun o ho => hops o (List.mem_cons_of_mem op ho))
      (step_cfg_pos st op (hops op (List.mem_cons_self op ops)) h)

lemma shape_decomp (a : NDArr) (h2 : 2 ≤ a.shape.length) :
    a.shape = a.shape.getD 0 0 :: a.shape.getD 1 0 :: a.shape.drop 2 := by
  rcases hs : a.shape with _ | ⟨x, _ | ⟨y, t⟩⟩
  · rw [hs] at h2
    simp at h2
  · rw [hs] at h2
    simp at h2
  · rfl

lemma calc_img0_self : _calculate_image_diff img0W img0W = .ok 0 := by
  have h1 : absSubData img0W img0W = some [0] := rfl
  have h2 : _calculate_image_diff img0W img0W = absSubMean img0W img0W := by
    simp [_calculate_image_diff]
  rw [h2, absSubMean_eq_of_data _ _ _ h1]
  norm_num

lemma calcC1 : _calculate_image_diff imgC1 img0W = .ok 1 := by
  have h1 : absSubData imgC1 img0W = some [255] := rfl
  have h2 : _calculate_image_diff imgC1 img0W = absSubMean imgC1 img0W := by
    simp [_calculate_image_diff, imgC1, img0W]
  rw [h2, absSubMean_eq_of_data _ _ _ h1]
  norm_num

lemma calcC5 : _calculate_image_diff imgC5 memC5 = .ok (mkRat 1 5) := by
  have h1 : absSubData imgC5 memC5 = some [51, 51] := rfl
  have h2 : _calculate_image_diff imgC5 memC5 = absSubMean imgC5 memC5 := by
    simp [_calculate_image_diff, imgC5, memC5]
  rw [h2, absSubMean_eq_of_data _ _ _ h1, Rat.mkRat_eq_div]
  norm_num

lemma gdOne : get_detections stOneW (.valid img0W) = (stOneW, .ok []) := by
  have hloop : compareLoop img0W stOneW.required_diff stOneW.image_memories = .ok false := by
    have h := compareLoop_break img0W (mkRat 1 5) [] img0W []
      (fun m hm => absurd hm (List.not_mem_nil m)) ⟨0, calc_img0_self, by decide⟩
    simpa [stOneW] using h
  rw [get_detections_loop stOneW img0W rfl rfl, hloop]

/-- C3: for any valid decoded image, the first `evaluate` call on a
configured engine with empty memory returns no detections (changed=false)
and leaves the memory holding exactly that decoded image. -/
theorem bootstrap_first_evaluate (st : EngineState) (img : NDArr)
    (hcam : st.input_camera = true) (hmem : st.image_memories = []) :
    get_detections st (.valid img) = ({ st with image_memories := [img] }, .ok []) :=
  get_detections_empty st img hcam hmem

/-- Witness for C3 at a concrete configured empty-memory engine. -/
theorem bootstrap_first_evaluate_witness :
    stEmptyW.input_camera = true ∧ stEmptyW.image_memories = [] ∧
      get_detections stEmptyW (.valid img0W) =
        ({ stEmptyW with image_memories := [img0W] }, .ok []) :=
  ⟨rfl, rfl, bootstrap_first_evaluate stEmptyW img0W rfl rfl⟩

/-- C6: when the input buffer cannot be decoded, `get_detections` on a
configured engine fails with the decode error and the whole engine state
is returned untouched. -/
theorem decode_failure_leaves_memory_untouched (st : EngineState)
    (hcam : st.input_camera = true) :
    get_detections st .invalid = (st, .error .decodeError) :=
  get_detections_invalid st hcam

/-- Witness for C6 at a concrete configured engine. -/
theorem decode_failure_leaves_memory_untouched_witness :
    stOneW.input_camera = true ∧
      get_detections stOneW .invalid = (stOneW, .error .decodeError) :=
  ⟨rfl, decode_failure_leaves_memory_untouched stOneW rfl⟩

/-- C4: with non-empty memory, the references are scanned in stored order;
when every reference before some reference `x` compares with a defined
difference at or above the threshold and `x` compares strictly below it,
the loop stops there (whatever follows `x`, compared or not), the call
returns no detections (changed=false), and the state is unchanged. -/
theorem not_different_short_circuit (st : EngineState) (img x : NDArr)
    (front rest : List NDArr)
    (hcam : st.input_camera = true)
    (hmem : st.image_memories = front ++ x :: rest)
    (hfront : ∀ m ∈ front, ∃ q, _calculate_image_diff img m = .ok q ∧ st.required_diff ≤ q)
    (hx : ∃ q, _calculate_image_diff img x = .ok q ∧ q < st.required_diff) :
    get_detections st (.valid img) = (st, .ok []) := by
  have hne : st.image_memories.isEmpty = false := by
    rw [hmem]
    simp
  rw [get_detections_loop st img hcam hne, hmem,
    compareLoop_break img st.required_diff front x rest hfront hx]

/-- Witness for C4: a stored image identical to the input is compared,
found 0-different, and the engine state is left as it was. -/
theorem not_different_short_circuit_witness :
    stOneW.input_camera = true ∧ stOneW.image_memories = [] ++ img0W :: [] ∧
      get_detections stOneW (.valid img0W) = (stOneW, .ok []) :=
  ⟨rfl, rfl, not_different_short_circuit stOneW img0W img0W [] [] rfl rfl
    (fun m hm => absurd hm (List.not_mem_nil m)) ⟨0, calc_img0_self, by decide⟩⟩

/-- C7: along every call sequence from the initial state, the image memory
holds at most one stored image; moreover any `get_detections` call that
returns normally on non-empty memory leaves the state unchanged, so the
bootstrap append on empty memory is the only normally-returning append. -/
theorem memory_holds_at_most_one_image :
    (∀ ops : List Op, (runOps initState ops).image_memories.length ≤ 1) ∧
      ∀ (st st2 : EngineState) (image : RawImage) (ds : List Detection),
        get_detections st image = (st2, .ok ds) → st.image_memories ≠ [] → st2 = st := by
  constructor
  · intro ops
    exact runOps_len ops initState (by simp [initState])
  · intro st st2 image ds heq hne
    rcases get_detections_fst_cases st image with h | ⟨hnil, _, _, _⟩
    · rw [heq] at h
      exact h
    · exact absurd hnil hne

/-- Witness for C7: a normally-returning call on one-image memory leaves
the state unchanged. -/
theorem memory_holds_at_most_one_image_witness :
    get_detections stOneW (.valid img0W) = (stOneW, .ok []) ∧
      stOneW.image_memories ≠ [] ∧ stOneW = stOneW :=
  ⟨gdOne, by simp [stOneW],
    memory_holds_at_most_one_image.2 stOneW stOneW (.valid img0W) [] gdOne
      (by simp [stOneW])⟩

/-- C2: after any sequence of configure, evaluate and clear-memory calls
whose configurations carry a positive `image_memories` capacity, the
number of stored reference images satisfies `0 ≤ len ≤ capacity`, the
capacity being the most recently configured `image_memories` value. -/
theorem memory_length_within_capacity (ops : List Op)
    (hops : ∀ op ∈ ops, opOk op = true) :
    0 ≤ (runOps initState ops).image_memories.length ∧
      (runOps initState ops).image_memories.length ≤
        (runOps initState ops).image_memories_cfg := by
  refine ⟨Nat.zero_le _, ?_⟩
  exact (runOps_len ops initState (by simp [initState])).trans
    (runOps_cfg ops initState hops (by simp [initState]))

/-- Witness for C2 on a concrete configure/evaluate/evaluate/clear trace. -/
theorem memory_length_within_capacity_witness :
    (∀ op ∈ wOps, opOk op = true) ∧
      (0 ≤ (runOps initState wOps).image_memories.length ∧
        (runOps initState wOps).image_memories.length ≤
          (runOps initState wOps).image_memories_cfg) :=
  ⟨by decide, memory_length_within_capacity wOps (by decide)⟩

/-- C1 (code bug): on a one-image memory whose stored reference differs
from the input by 1.0 ≥ threshold 0.2 — so the input differs enough from
every stored reference — the call does not commit the image and does not
return a detection: line 125 compares `len(self.image_memories)` (an
`int`) with `self.image_memories` (a `list`), which raises `TypeError`
before the eviction/append can run, and the memory is left unchanged. -/
theorem commit_branch_raises_type_error :
    _calculate_image_diff imgC1 img0W = .ok 1 ∧
      stOneW.required_diff ≤ 1 ∧
      get_detections stOneW (.valid imgC1) = (stOneW, .error .typeError) := by
  refine ⟨calcC1, ?_, ?_⟩
  · show mkRat 1 5 ≤ 1
    rw [Rat.mkRat_eq_div]
    norm_num
  · have hnlt : ¬ (1 : ℚ) < mkRat 1 5 := by
      rw [Rat.mkRat_eq_div]
      norm_num
    have hloop : compareLoop imgC1 stOneW.required_diff stOneW.image_memories = .ok true := by
      show compareLoop imgC1 (mkRat 1 5) [img0W] = .ok true
      simp [compareLoop, calcC1, hnlt]
    rw [get_detections_loop stOneW imgC1 rfl rfl, hloop]

/-- C5 (code bug): for the fixed image pair `imgC5`/`memC5` the raw score
is exactly 0.2; with threshold 0.25 the call returns changed=false, but
with the lower threshold 0.2 — where the score is ≥ threshold for every
stored reference, so the claim requires changed=true — the call raises
`TypeError` at the line-125 capacity check instead. `evaluate` therefore
never reports changed=true on non-empty memory, and lowering the
threshold turns changed=false into an exception, not into changed=true. -/
theorem changed_true_never_reported :
    _calculate_image_diff imgC5 memC5 = .ok (mkRat 1 5) ∧
      (get_detections { stC5 with required_diff := mkRat 1 4 } (.valid imgC5)).2 = .ok [] ∧
      get_detections stC5 (.valid imgC5) = (stC5, .error .typeError) := by
  refine ⟨calcC5, ?_, ?_⟩
  · have hlt : mkRat 1 5 < mkRat 1 4 := by decide
    have hloop : compareLoop imgC5 ({ stC5 with required_diff := mkRat 1 4 }).required_diff
        ({ stC5 with required_diff := mkRat 1 4 }).image_memories = .ok false := by
      show compareLoop imgC5 (mkRat 1 4) [memC5] = .ok false
      simp [compareLoop, calcC5, hlt]
    rw [get_detections_loop { stC5 with required_diff := mkRat 1 4 } imgC5 rfl rfl, hloop]
  · have hnlt : ¬ mkRat 1 5 < mkRat 1 5 := by decide
    have hloop : compareLoop imgC5 stC5.required_diff stC5.image_memories = .ok true := by
      show compareLoop imgC5 (mkRat 1 5) [memC5] = .ok true
      simp [compareLoop, calcC5, hnlt]
    rw [get_detections_loop stC5 imgC5 rfl rfl, hloop]

/-- C8: the normalized pairwise difference is symmetric for images of the
same dimensions (equal numpy shapes). -/
theorem image_diff_symm (a b : NDArr) (h : a.shape = b.shape) :
    _calculate_image_diff a b = _calculate_image_diff b a := by
  have hfun : (fun m => natAbsDiff (readMulti a m) (readMulti b m)) =
      (fun m => natAbsDiff (readMulti b m) (readMulti a m)) :=
    funext fun m => natAbsDiff_comm _ _
  unfold _calculate_image_diff
  rw [h]
  rw [if_neg fun hc => hc rfl, if_neg fun hc => hc rfl]
  unfold absSubMean absSubData
  rw [h, hfun]

/-- Witness for C8 at two concrete same-shape images. -/
theorem image_diff_symm_witness :
    imgA8.shape = imgB8.shape ∧
      _calculate_image_diff imgA8 imgB8 = _calculate_image_diff imgB8 imgA8 :=
  ⟨rfl, image_diff_symm imgA8 imgB8 rfl⟩

/-- C10: the `targeted_memory_erasure` command always succeeds, empties
the reference image collection immediately, leaves the threshold, the
camera and the configured capacity unchanged, and is idempotent: a second
call yields the same state and the same response as the first. -/
theorem targeted_memory_erasure_clears_idempotent (st : EngineState) :
    (do_command st ["targeted_memory_erasure"]).1.image_memories = [] ∧
      (do_command st ["targeted_memory_erasure"]).1.required_diff = st.required_diff ∧
      (do_command st ["targeted_memory_erasure"]).1.image_memories_cfg =
        st.image_memories_cfg ∧
      (do_command st ["targeted_memory_erasure"]).1.input_camera = st.input_camera ∧
      (do_command st ["targeted_memory_erasure"]).2 =
        ⟨"success", "All image memories cleared"⟩ ∧
      do_command (do_command st ["targeted_memory_erasure"]).1 ["targeted_memory_erasure"] =
        do_command st ["targeted_memory_erasure"] := by
  have hmem : "targeted_memory_erasure" ∈ ["targeted_memory_erasure"] :=
    List.mem_singleton.mpr rfl
  simp [do_command, hmem]

/-- Counterexample to C9 as stated: two valid decoded images of different
pixel dimensions — a 1×2 RGB image (numpy shape `(1, 2, 3)`) and a 2×4
grayscale image (shape `(2, 4)`) — are not comparable: after the grayscale
image is resized to shape `(1, 2)`, the subtraction cannot broadcast
`(1, 2, 3)` against `(1, 2)` and numpy raises `ValueError`. -/
theorem mismatched_dims_not_always_comparable :
    ValidImg imgA9x ∧ ValidImg imgB9x ∧ shapeHW imgA9x ≠ shapeHW imgB9x ∧
      _calculate_image_diff imgA9x imgB9x = .error .valueError := by
  refine ⟨by decide, by decide, by decide, ?_⟩
  rfl

/-- C9 (amended): for valid decoded images of different pixel dimensions
whose channel structure agrees (the shapes match beyond height and width),
the difference computation succeeds with a score in [0, 1]; when one image
has strictly more pixels it is the one resized down to the other's height
and width before the comparison. -/
theorem mismatched_dims_same_channels_score (A B : NDArr)
    (hA : ValidImg A) (hB : ValidImg B)
    (hdims : shapeHW A ≠ shapeHW B)
    (hrest : A.shape.drop 2 = B.shape.drop 2) :
    (∃ q, _calculate_image_diff A B = .ok q ∧ 0 ≤ q ∧ q ≤ 1) ∧
      ((shapeHW A).1 * (shapeHW A).2 > (shapeHW B).1 * (shapeHW B).2 →
        _calculate_image_diff A B =
          absSubMean (resizeTo A (shapeHW B).1 (shapeHW B).2) B) ∧
      ((shapeHW A).1 * (shapeHW A).2 ≤ (shapeHW B).1 * (shapeHW B).2 →
        _calculate_image_diff A B =
          absSubMean A (resizeTo B (shapeHW A).1 (shapeHW A).2)) := by
  obtain ⟨hA2, _, hApos, hAdata, _⟩ := hA
  obtain ⟨hB2, _, hBpos, hBdata, _⟩ := hB
  have hAdec := shape_decomp A hA2
  have hBdec := shape_decomp B hB2
  have hshne : A.shape ≠ B.shape := by
    intro he
    exact hdims (by simp [shapeHW, he])
  by_cases hgt : (shapeHW A).1 * (shapeHW A).2 > (shapeHW B).1 * (shapeHW B).2
  · have heq : _calculate_image_diff A B =
        absSubMean (resizeTo A (shapeHW B).1 (shapeHW B).2) B := by
      unfold _calculate_image_diff
      rw [if_pos hshne, if_pos hgt]
    have hsh : (resizeTo A (shapeHW B).1 (shapeHW B).2).shape = B.shape := by
      rw [resizeTo_shape, hrest]
      simpa [shapeHW] using hBdec.symm
    obtain ⟨q, hq, h0, h1⟩ := absSubMean_bounds _ B hsh hBpos
      (resizeTo_data_le A _ _ hAdata) hBdata
    exact ⟨⟨q, heq.trans hq, h0, h1⟩, fun _ => heq, fun hle => absurd hle (not_le.2 hgt)⟩
  · have heq : _calculate_image_diff A B =
        absSubMean A (resizeTo B (shapeHW A).1 (shapeHW A).2) := by
      unfold _calculate_image_diff
      rw [if_pos hshne, if_neg hgt]
    have hsh : (resizeTo B (shapeHW A).1 (shapeHW A).2).shape = A.shape := by
      rw [resizeTo_shape, ← hrest]
      simpa [shapeHW] using hAdec.symm
    obtain ⟨q, hq, h0, h1⟩ := absSubMean_bounds A _ hsh.symm
      (fun d hd => hApos d (hsh ▸ hd)) hAdata (resizeTo_data_le B _ _ hBdata)
    exact ⟨⟨q, heq.trans hq, h0, h1⟩, fun hgt2 => absurd hgt2 hgt, fun _ => heq⟩

/-- Witness for the amended C9 at two concrete grayscale images of
different pixel dimensions. -/
theorem mismatched_dims_same_channels_score_witness :
    (ValidImg imgA9 ∧ ValidImg imgB9 ∧ shapeHW imgA9 ≠ shapeHW imgB9 ∧
        imgA9.shape.drop 2 = imgB9.shape.drop 2) ∧
      (∃ q, _calculate_image_diff imgA9 imgB9 = .ok q ∧ 0 ≤ q ∧ q ≤ 1) ∧
      ((shapeHW imgA9).1 * (shapeHW imgA9).2 > (shapeHW imgB9).1 * (shapeHW imgB9).2 →
        _calculate_image_diff imgA9 imgB9 =
          absSubMean (resizeTo imgA9 (shapeHW imgB9).1 (shapeHW imgB9).2) imgB9) ∧
      ((shapeHW imgA9).1 * (shapeHW imgA9).2 ≤ (shapeHW imgB9).1 * (shapeHW imgB9).2 →
        _calculate_image_diff imgA9 imgB9 =
          absSubMean imgA9 (resizeTo imgB9 (shapeHW imgA9).1 (shapeHW imgA9).2)) :=
  ⟨⟨by decide, by decide, by decide, rfl⟩,
    mismatched_dims_same_channels_score imgA9 imgB9 (by decide) (by decide) (by decide) rfl⟩

end DiffVision
